import Mathlib

/-!
# Resource-inspection facade of the integration tests (`integration-test/actors/aws.go`)

A shallow embedding of the six query methods of the `AWS` actor
(`StackExists`, `GetPhysicalID`, `LoadBalancers`, `DescribeCertificate`,
`GetEC2InstanceTags`, `DescribeKeyPairs`) and theorems about what they return
and when they abort the running test.

Modelling conventions.

* A Go `error` is an `Option GoError`: `none` is `nil`.  The two sentinels the
  file compares against (`cloudformation.StackNotFound`,
  `iam.CertificateNotFound`) are constructors of their own; every other error
  value is `GoError.other`.
* A Go pointer is an `Option`: `none` is `nil`.
* A Go `map[string]string` is an association list (`GoMap`); a read of a key
  that is absent gives `""`, a write overwrites in place or appends.
* A method either returns a value or aborts the test (`Outcome`).  Gomega is
  taken with a fail handler that aborts the test, as under Ginkgo; a nil
  dereference is a runtime fault that aborts it too.
* The collaborators held by the `AWS` struct are interface values whose
  implementations are not in this file; they are fields of function type, read
  as the provider's answer to a call while the provider's state is unchanged.
-/

namespace Actors

/-! ## Errors, outcomes -/

/-- Go `error` values, up to the comparisons `aws.go` performs on them. -/
inductive GoError where
  /-- The sentinel `cloudformation.StackNotFound`. -/
  | StackNotFound
  /-- The sentinel `iam.CertificateNotFound`. -/
  | CertificateNotFound
  /-- Any other error value. -/
  | other (msg : String)
  deriving DecidableEq

/-- Why a test was aborted. -/
inductive Halt where
  /-- A Gomega expectation failed. -/
  | assertion
  /-- A nil pointer was dereferenced. -/
  | nilDereference
  /-- A slice was indexed out of range. -/
  | indexOutOfRange
  deriving DecidableEq

/-- Result of running a method of the actor: it returns, or the test halts. -/
inductive Outcome (α : Type) where
  | returned (v : α)
  | halted (why : Halt)
  deriving DecidableEq

/-- Sequencing: a halt stops everything after it. -/
def Outcome.bind {α β : Type} (x : Outcome α) (f : α → Outcome β) : Outcome β :=
  match x with
  | .returned v => f v
  | .halted why => .halted why

instance : Monad Outcome where
  pure := Outcome.returned
  bind := Outcome.bind

/-- The statement `Expect(err).NotTo(HaveOccurred())`. -/
def expectNoError (err : Option GoError) : Outcome Unit :=
  match err with
  | none => .returned ()
  | some _ => .halted .assertion

/-- The statement `Expect(xs).To(HaveLen(n))`. -/
def expectLen {α : Type} (xs : List α) (n : Nat) : Outcome Unit :=
  if xs.length = n then .returned () else .halted .assertion

/-- Dereference of a pointer. -/
def deref {α : Type} (p : Option α) : Outcome α :=
  match p with
  | some v => .returned v
  | none => .halted .nilDereference

/-- Slice indexing `xs[i]`. -/
def sliceIndex {α : Type} (xs : List α) (i : Nat) : Outcome α :=
  match xs.get? i with
  | some v => .returned v
  | none => .halted .indexOutOfRange

/-- The SDK helper `aws.StringValue`: the pointed-to string, `""` for nil. -/
def StringValue (p : Option String) : String :=
  match p with
  | some s => s
  | none => ""

/-- The SDK helper `aws.String`: a pointer to the string. -/
def awsString (s : String) : Option String := some s

/-- The SDK helper `aws.Bool`: a pointer to the boolean. -/
def awsBool (b : Bool) : Option Bool := some b

/-! ## Go maps from strings to strings -/

/-- A `map[string]string`, as the list of its entries. -/
abbrev GoMap := List (String × String)

/-- The entry stored under `k`, if there is one. -/
def GoMap.find? (m : GoMap) (k : String) : Option String :=
  match m with
  | [] => none
  | (k', v) :: rest => if k' = k then some v else GoMap.find? rest k

/-- The read `m[k]`: the zero value `""` when `k` is absent. -/
def GoMap.index (m : GoMap) (k : String) : String :=
  match GoMap.find? m k with
  | some v => v
  | none => ""

/-- The write `m[k] = v`. -/
def GoMap.assign (m : GoMap) (k v : String) : GoMap :=
  match m with
  | [] => [(k, v)]
  | (k', v') :: rest =>
    if k' = k then (k, v) :: rest else (k', v') :: GoMap.assign rest k v

/-- The keys of a map, in entry order. -/
def GoMap.keys (m : GoMap) : List String := m.map Prod.fst

/-! ## Provider data -/

/-- The type `cloudformation.Stack`, with the fields the spec lists; `aws.go` reads `Outputs` only. -/
structure Stack where
  Name : String
  Outputs : GoMap
  deriving DecidableEq

/-- Modelled from the spec: the type `iam.Certificate`, declared outside this
file, with the attributes the data model lists (name, provider-assigned
identifier, expiration metadata). -/
structure Certificate where
  Name : String
  ARN : String
  Expiration : String
  deriving DecidableEq

/-- The zero value `Certificate{}`. -/
def Certificate.zero : Certificate := { Name := "", ARN := "", Expiration := "" }

/-- An `ec2.Tag`. -/
structure Tag where
  Key : Option String
  Value : Option String
  deriving DecidableEq

/-- An `ec2.Instance`, with the one field `aws.go` reads. -/
structure Instance where
  Tags : List (Option Tag)
  deriving DecidableEq

/-- An `ec2.Reservation`, with the one field `aws.go` reads. -/
structure Reservation where
  Instances : List (Option Instance)
  deriving DecidableEq

/-- An `ec2.DescribeInstancesOutput`, with the one field `aws.go` reads. -/
structure DescribeInstancesOutput where
  Reservations : List (Option Reservation)
  deriving DecidableEq

/-- An `ec2.Filter`. -/
structure Filter where
  Name : Option String
  Values : List (Option String)
  deriving DecidableEq

/-- An `ec2.DescribeInstancesInput`, with the fields `aws.go` sets. -/
structure DescribeInstancesInput where
  DryRun : Option Bool
  Filters : List (Option Filter)
  InstanceIds : List (Option String)
  deriving DecidableEq

/-- An `ec2.KeyPairInfo`. -/
structure KeyPairInfo where
  KeyFingerprint : Option String
  KeyName : Option String
  deriving DecidableEq

/-- An `ec2.DescribeKeyPairsInput`, with the fields `aws.go` sets. -/
structure DescribeKeyPairsInput where
  Filters : List (Option Filter)
  KeyNames : List (Option String)
  deriving DecidableEq

/-- An `ec2.DescribeKeyPairsOutput`, with the one field `aws.go` reads. -/
structure DescribeKeyPairsOutput where
  KeyPairs : List (Option KeyPairInfo)
  deriving DecidableEq

/-! ## Collaborators -/

/-- The interface `cloudformation.StackManager`, with the methods `aws.go` calls. -/
structure StackManager where
  Describe : String → Stack × Option GoError
  GetPhysicalIDForResource : String → String → String × Option GoError

/-- The interface `iam.CertificateDescriber`. -/
structure CertificateDescriber where
  Describe : String → Certificate × Option GoError

/-- The interface `ec2.Client`, with the methods `aws.go` calls. -/
structure EC2Client where
  DescribeInstances : DescribeInstancesInput → Option DescribeInstancesOutput × Option GoError
  DescribeKeyPairs : DescribeKeyPairsInput → Option DescribeKeyPairsOutput × Option GoError

/-- The interface `cloudformation.Client`; `aws.go` holds it and never calls it. -/
structure CloudFormationClient where
  handle : Nat

/-- The struct `AWS`. -/
structure AWS where
  stackManager : StackManager
  certificateDescriber : CertificateDescriber
  ec2Client : EC2Client
  cloudFormationClient : CloudFormationClient

/-! ## The query methods -/

/-- The method `AWS.StackExists`. -/
def StackExists (a : AWS) (stackName : String) : Outcome Bool :=
  let (_, err) := a.stackManager.Describe stackName
  if err = some GoError.StackNotFound then
    pure false
  else do
    expectNoError err
    pure true

/-- The method `AWS.GetPhysicalID`. -/
def GetPhysicalID (a : AWS) (stackName logicalID : String) : Outcome String :=
  let (physicalID, err) := a.stackManager.GetPhysicalIDForResource stackName logicalID
  do
    expectNoError err
    pure physicalID

/-- The slice literal `LoadBalancers` ranges over. -/
def loadBalancerKeys : List String :=
  ["CFRouterLoadBalancer", "CFSSHProxyLoadBalancer", "ConcourseLoadBalancer",
    "ConcourseLoadBalancerURL"]

/-- The body of the loop of `LoadBalancers`, for one key. -/
def loadBalancerStep (outputs : GoMap) (loadBalancers : GoMap) (loadBalancer : String) : GoMap :=
  if GoMap.index outputs loadBalancer ≠ "" then
    GoMap.assign loadBalancers loadBalancer (GoMap.index outputs loadBalancer)
  else
    loadBalancers

/-- The method `AWS.LoadBalancers`. -/
def LoadBalancers (a : AWS) (stackName : String) : Outcome GoMap :=
  let (stack, err) := a.stackManager.Describe stackName
  do
    expectNoError err
    let loadBalancers : GoMap := []
    pure (loadBalancerKeys.foldl (loadBalancerStep stack.Outputs) loadBalancers)

/-- The method `AWS.DescribeCertificate`. -/
def DescribeCertificate (a : AWS) (certificateName : String) : Outcome Certificate :=
  let (certificate, err) := a.certificateDescriber.Describe certificateName
  do
    if err ≠ none ∧ err ≠ some GoError.CertificateNotFound then
      expectNoError err
    pure certificate

/-- The request `GetEC2InstanceTags` builds. -/
def describeInstanceInput (instanceID : String) : DescribeInstancesInput :=
  { DryRun := awsBool false
    Filters := [some { Name := awsString "instance-id", Values := [awsString instanceID] }]
    InstanceIds := [awsString instanceID] }

/-- The loop of `GetEC2InstanceTags` over the instance's tags. -/
def flattenTags (instanceTags : List (Option Tag)) (tags : GoMap) : Outcome GoMap :=
  match instanceTags with
  | [] => pure tags
  | tag :: rest => do
    let t ← deref tag
    flattenTags rest (GoMap.assign tags (StringValue t.Key) (StringValue t.Value))

/-- The method `AWS.GetEC2InstanceTags`. -/
def GetEC2InstanceTags (a : AWS) (instanceID : String) : Outcome GoMap :=
  let (describeInstancesOutput, err) := a.ec2Client.DescribeInstances (describeInstanceInput instanceID)
  do
    expectNoError err
    expectLen (← deref describeInstancesOutput).Reservations 1
    expectLen (← deref (← sliceIndex (← deref describeInstancesOutput).Reservations 0)).Instances 1
    let inst ← sliceIndex (← deref (← sliceIndex (← deref describeInstancesOutput).Reservations 0)).Instances 0
    let tags : GoMap := []
    flattenTags (← deref inst).Tags tags

/-- The request `DescribeKeyPairs` builds. -/
def describeKeyPairsParams (keypairName : String) : DescribeKeyPairsInput :=
  { Filters := [some { Name := none, Values := [] }]
    KeyNames := [awsString keypairName] }

/-- The method `AWS.DescribeKeyPairs`. -/
def DescribeKeyPairs (a : AWS) (keypairName : String) : Outcome (List (Option KeyPairInfo)) :=
  let (keypairOutput, err) := a.ec2Client.DescribeKeyPairs (describeKeyPairsParams keypairName)
  do
    expectNoError err
    let out ← deref keypairOutput
    pure out.KeyPairs

/-! ## The certificate lookup, from the specification -/

/-- Modelled from the spec: the method `iam.CertificateDescriber.Describe`, whose
body is outside this file.  It looks a certificate up by name among the
provider's certificates; when none carries the name it signals
`CertificateNotFound` together with the zero `Certificate`. -/
def certificateDescriberOver (certificates : List Certificate) : CertificateDescriber where
  Describe := fun certificateName =>
    match certificates.find? (fun c => decide (c.Name = certificateName)) with
    | some c => (c, none)
    | none => (Certificate.zero, some GoError.CertificateNotFound)

/-! ## Concrete providers -/

/-- An actor whose collaborators answer every call with one fixed response each. -/
def fixedResponses (describe : Stack × Option GoError) (physicalID : String × Option GoError)
    (certificate : Certificate × Option GoError)
    (instances : Option DescribeInstancesOutput × Option GoError)
    (keyPairs : Option DescribeKeyPairsOutput × Option GoError) : AWS where
  stackManager :=
    { Describe := fun _ => describe
      GetPhysicalIDForResource := fun _ _ => physicalID }
  certificateDescriber := { Describe := fun _ => certificate }
  ec2Client :=
    { DescribeInstances := fun _ => instances
      DescribeKeyPairs := fun _ => keyPairs }
  cloudFormationClient := { handle := 0 }

/-- An actor over a provider holding the given certificates; its other collaborators fail. -/
def withCertificates (certificates : List Certificate) : AWS where
  stackManager :=
    { Describe := fun _ => ({ Name := "", Outputs := [] }, some (GoError.other "unreachable"))
      GetPhysicalIDForResource := fun _ _ => ("", some (GoError.other "unreachable")) }
  certificateDescriber := certificateDescriberOver certificates
  ec2Client :=
    { DescribeInstances := fun _ => (none, some (GoError.other "unreachable"))
      DescribeKeyPairs := fun _ => (none, some (GoError.other "unreachable")) }
  cloudFormationClient := { handle := 0 }

/-- A stack with one provisioned load balancer and one empty output. -/
def routerOnlyStack : Stack :=
  { Name := "bbl-stack"
    Outputs := [("CFRouterLoadBalancer", "lb-1"), ("ConcourseLoadBalancer", "")] }

/-- The tags `Name=bosh/0`, `deployment=cf`. -/
def directorTags : List Tag :=
  [{ Key := some "Name", Value := some "bosh/0" }, { Key := some "deployment", Value := some "cf" }]

/-- A response holding one reservation with one instance carrying the given tags. -/
def singleInstance (tags : List Tag) : DescribeInstancesOutput :=
  { Reservations := [some { Instances := [some { Tags := tags.map some }] }] }

/-- An answer no method inspects: used where a collaborator is not the one under study. -/
def failing {α : Type} (zero : α) : α × Option GoError := (zero, some (GoError.other "boom"))

/-! ## Lemmas on outcomes -/

@[simp] theorem Outcome.pure_eq {α : Type} (v : α) : (pure v : Outcome α) = Outcome.returned v := rfl

@[simp] theorem Outcome.returned_bind {α β : Type} (v : α) (f : α → Outcome β) :
    (Outcome.returned v >>= f) = f v := rfl

@[simp] theorem Outcome.halted_bind {α β : Type} (why : Halt) (f : α → Outcome β) :
    ((Outcome.halted why : Outcome α) >>= f) = Outcome.halted why := rfl

@[simp] theorem expectNoError_none : expectNoError none = Outcome.returned () := rfl

@[simp] theorem expectNoError_some (e : GoError) :
    expectNoError (some e) = Outcome.halted Halt.assertion := rfl

/-! ## Lemmas on maps -/

theorem GoMap.find?_assign (m : GoMap) (k v k' : String) :
    GoMap.find? (GoMap.assign m k v) k' = if k = k' then some v else GoMap.find? m k' := by
  induction m with
  | nil => simp [GoMap.assign, GoMap.find?]
  | cons e rest ih =>
    obtain ⟨k0, v0⟩ := e
    by_cases h0 : k0 = k
    · subst h0
      by_cases h1 : k0 = k' <;> simp [GoMap.assign, GoMap.find?, h1]
    · by_cases h1 : k0 = k'
      · subst h1
        have : ¬ k = k0 := fun h => h0 h.symm
        simp [GoMap.assign, GoMap.find?, h0, this]
      · simp [GoMap.assign, GoMap.find?, h0, h1, ih]

theorem GoMap.mem_keys_iff (m : GoMap) (k : String) :
    k ∈ GoMap.keys m ↔ ∃ v, GoMap.find? m k = some v := by
  induction m with
  | nil => simp [GoMap.keys, GoMap.find?]
  | cons e rest ih =>
    obtain ⟨k0, v0⟩ := e
    by_cases h0 : k0 = k
    · subst h0
      simp [GoMap.keys, GoMap.find?]
    · have h1 : ¬ k = k0 := fun h => h0 h.symm
      have ih' : k ∈ List.map Prod.fst rest ↔ ∃ v, GoMap.find? rest k = some v := ih
      simp only [GoMap.keys, GoMap.find?, List.map_cons, List.mem_cons, h0, h1, if_false,
        false_or]
      exact ih'

theorem GoMap.keys_assign_nodup (m : GoMap) (k v : String) (h : (GoMap.keys m).Nodup) :
    (GoMap.keys (GoMap.assign m k v)).Nodup := by
  induction m with
  | nil => simp [GoMap.assign, GoMap.keys]
  | cons e rest ih =>
    obtain ⟨k0, v0⟩ := e
    have hk : GoMap.keys ((k0, v0) :: rest) = k0 :: GoMap.keys rest := rfl
    rw [hk, List.nodup_cons] at h
    by_cases h0 : k0 = k
    · subst h0
      have : GoMap.assign ((k0, v0) :: rest) k0 v = (k0, v) :: rest := by simp [GoMap.assign]
      rw [this]
      show (k0 :: GoMap.keys rest).Nodup
      exact List.nodup_cons.mpr h
    · have : GoMap.assign ((k0, v0) :: rest) k v = (k0, v0) :: GoMap.assign rest k v := by
        simp [GoMap.assign, h0]
      rw [this]
      show (k0 :: GoMap.keys (GoMap.assign rest k v)).Nodup
      refine List.nodup_cons.mpr ⟨?_, ih h.2⟩
      intro hmem
      rw [GoMap.mem_keys_iff] at hmem
      obtain ⟨w, hw⟩ := hmem
      rw [GoMap.find?_assign] at hw
      have hne : ¬ k = k0 := fun h => h0 h.symm
      simp only [hne, if_false] at hw
      exact h.1 ((GoMap.mem_keys_iff rest k0).mpr ⟨w, hw⟩)

theorem GoMap.index_ne_empty_iff (m : GoMap) (k : String) :
    GoMap.index m k ≠ "" ↔ ∃ v, GoMap.find? m k = some v ∧ v ≠ "" := by
  unfold GoMap.index
  cases h : GoMap.find? m k with
  | none => simp
  | some v => simp

theorem GoMap.index_of_find? (m : GoMap) (k v : String) (h : GoMap.find? m k = some v) :
    GoMap.index m k = v := by
  simp [GoMap.index, h]

/-! ## The loop of `LoadBalancers` -/

theorem loadBalancers_fold_find? (outputs : GoMap) (keys : List String) (acc : GoMap) (k : String) :
    GoMap.find? (keys.foldl (loadBalancerStep outputs) acc) k =
      if k ∈ keys ∧ GoMap.index outputs k ≠ "" then some (GoMap.index outputs k)
      else GoMap.find? acc k := by
  induction keys generalizing acc with
  | nil => simp
  | cons k0 rest ih =>
    rw [List.foldl_cons, ih]
    by_cases hr : k ∈ rest ∧ GoMap.index outputs k ≠ ""
    · have : k ∈ k0 :: rest ∧ GoMap.index outputs k ≠ "" := ⟨List.mem_cons_of_mem _ hr.1, hr.2⟩
      rw [if_pos hr, if_pos this]
    · rw [if_neg hr]
      unfold loadBalancerStep
      by_cases hv : GoMap.index outputs k0 ≠ ""
      · rw [if_pos hv, GoMap.find?_assign]
        by_cases hk : k0 = k
        · subst hk
          have : k0 ∈ k0 :: rest ∧ GoMap.index outputs k0 ≠ "" := ⟨List.mem_cons_self _ _, hv⟩
          rw [if_pos rfl, if_pos this]
        · have : ¬ (k ∈ k0 :: rest ∧ GoMap.index outputs k ≠ "") := by
            rintro ⟨hm, hne⟩
            rcases List.mem_cons.mp hm with h | h
            · exact hk h.symm
            · exact hr ⟨h, hne⟩
          rw [if_neg hk, if_neg this]
      · rw [if_neg hv]
        have : ¬ (k ∈ k0 :: rest ∧ GoMap.index outputs k ≠ "") := by
          rintro ⟨hm, hne⟩
          rcases List.mem_cons.mp hm with h | h
          · subst h; exact hv hne
          · exact hr ⟨h, hne⟩
        rw [if_neg this]

theorem loadBalancers_fold_nodup (outputs : GoMap) (keys : List String) (acc : GoMap)
    (h : (GoMap.keys acc).Nodup) :
    (GoMap.keys (keys.foldl (loadBalancerStep outputs) acc)).Nodup := by
  induction keys generalizing acc with
  | nil => simpa using h
  | cons k0 rest ih =>
    rw [List.foldl_cons]
    apply ih
    unfold loadBalancerStep
    split
    · exact GoMap.keys_assign_nodup _ _ _ h
    · exact h


/-! ## The loop of `GetEC2InstanceTags` -/

/-- One iteration of the tag loop on a non-nil tag. -/
theorem flattenTags_map_some (T : List Tag) (acc : GoMap) :
    flattenTags (T.map some) acc =
      Outcome.returned
        (T.foldl (fun m t => GoMap.assign m (StringValue t.Key) (StringValue t.Value)) acc) := by
  induction T generalizing acc with
  | nil => rfl
  | cons t rest ih =>
    simp only [List.map_cons, List.foldl_cons]
    unfold flattenTags
    simp only [deref, Outcome.returned_bind]
    exact ih _

theorem tags_fold_find? (T : List Tag) (acc : GoMap) (k : String) :
    GoMap.find? (T.foldl (fun m t => GoMap.assign m (StringValue t.Key) (StringValue t.Value)) acc) k =
      ((T.reverse.find? (fun t => decide (StringValue t.Key = k))).map
        (fun t => StringValue t.Value)).or (GoMap.find? acc k) := by
  induction T generalizing acc with
  | nil => simp
  | cons t rest ih =>
    rw [List.foldl_cons, ih, GoMap.find?_assign, List.reverse_cons, List.find?_append]
    cases hr : List.find? (fun t => decide (StringValue t.Key = k)) rest.reverse with
    | some t' => simp
    | none =>
      by_cases hk : StringValue t.Key = k
      · simp [hk]
      · simp [hk]

theorem tags_fold_nodup (T : List Tag) (acc : GoMap) (h : (GoMap.keys acc).Nodup) :
    (GoMap.keys
      (T.foldl (fun m t => GoMap.assign m (StringValue t.Key) (StringValue t.Value)) acc)).Nodup := by
  induction T generalizing acc with
  | nil => simpa using h
  | cons t rest ih =>
    rw [List.foldl_cons]
    exact ih _ (GoMap.keys_assign_nodup _ _ _ h)

/-! ## Claims -/

/-- C1: when `Describe` succeeds with outputs `O`, `LoadBalancers` returns a map `M` in
which a key is present exactly when it is one of the four allowlisted keys and `O` holds a
non-empty value for it, and then `M[k] = O[k]`; the keys of `M` do not repeat; and for
`O = {"CFRouterLoadBalancer": "lb-1", "ConcourseLoadBalancer": ""}` the result is exactly
`{"CFRouterLoadBalancer": "lb-1"}`. -/
theorem LoadBalancers_allowlisted_nonempty (a : AWS) (stackName : String) (stack : Stack)
    (h : a.stackManager.Describe stackName = (stack, none)) :
    ∃ M : GoMap, LoadBalancers a stackName = Outcome.returned M ∧
      (∀ k, k ∈ GoMap.keys M ↔
        (k ∈ ["CFRouterLoadBalancer", "CFSSHProxyLoadBalancer", "ConcourseLoadBalancer",
            "ConcourseLoadBalancerURL"] ∧
          k ∈ GoMap.keys stack.Outputs ∧ GoMap.index stack.Outputs k ≠ "")) ∧
      (∀ k, k ∈ GoMap.keys M → GoMap.find? M k = GoMap.find? stack.Outputs k) ∧
      (GoMap.keys M).Nodup ∧
      (stack.Outputs = [("CFRouterLoadBalancer", "lb-1"), ("ConcourseLoadBalancer", "")] →
        M = [("CFRouterLoadBalancer", "lb-1")]) := by
  refine ⟨loadBalancerKeys.foldl (loadBalancerStep stack.Outputs) [], ?_, ?_, ?_, ?_, ?_⟩
  · simp [LoadBalancers, h]
  · intro k
    rw [GoMap.mem_keys_iff, loadBalancers_fold_find?]
    constructor
    · rintro ⟨v, hv⟩
      by_cases hc : k ∈ loadBalancerKeys ∧ GoMap.index stack.Outputs k ≠ ""
      · obtain ⟨w, hw, _⟩ := (GoMap.index_ne_empty_iff _ _).mp hc.2
        exact ⟨hc.1, (GoMap.mem_keys_iff _ _).mpr ⟨w, hw⟩, hc.2⟩
      · rw [if_neg hc] at hv
        simp [GoMap.find?] at hv
    · rintro ⟨hk, _, hne⟩
      have hc : k ∈ loadBalancerKeys ∧ GoMap.index stack.Outputs k ≠ "" := ⟨hk, hne⟩
      exact ⟨_, if_pos hc⟩
  · intro k hk
    rw [GoMap.mem_keys_iff, loadBalancers_fold_find?] at hk
    rw [loadBalancers_fold_find?]
    by_cases hc : k ∈ loadBalancerKeys ∧ GoMap.index stack.Outputs k ≠ ""
    · rw [if_pos hc]
      obtain ⟨w, hw, _⟩ := (GoMap.index_ne_empty_iff _ _).mp hc.2
      rw [GoMap.index_of_find? _ _ _ hw, hw]
    · obtain ⟨v, hv⟩ := hk
      rw [if_neg hc] at hv
      simp [GoMap.find?] at hv
  · exact loadBalancers_fold_nodup _ _ _ (by simp [GoMap.keys])
  · intro hO
    rw [hO]
    decide

/-- C1 at the stack of the example: the result is exactly the one router entry. -/
theorem LoadBalancers_allowlisted_nonempty_witness :
    ∃ M : GoMap,
      LoadBalancers
          (fixedResponses (routerOnlyStack, none) (failing "") (failing Certificate.zero)
            (failing none) (failing none)) "bbl-stack" = Outcome.returned M ∧
        M = [("CFRouterLoadBalancer", "lb-1")] := by
  obtain ⟨M, hM, _, _, _, hex⟩ :=
    LoadBalancers_allowlisted_nonempty
      (fixedResponses (routerOnlyStack, none) (failing "") (failing Certificate.zero)
        (failing none) (failing none)) "bbl-stack" routerOnlyStack rfl
  exact ⟨M, hM, hex rfl⟩

/-- C2: when the provider answers with exactly one reservation holding exactly one instance
with tag list `T`, `GetEC2InstanceTags` returns a map whose keys are exactly the keys
occurring in `T`, each mapped to the value of the last tag of `T` with that key; the keys of
the map do not repeat; and for the tags `Name=bosh/0`, `deployment=cf` the result is exactly
`{"Name": "bosh/0", "deployment": "cf"}`. -/
theorem GetEC2InstanceTags_last_write_wins (a : AWS) (instanceID : String) (T : List Tag)
    (h : a.ec2Client.DescribeInstances (describeInstanceInput instanceID) =
      (some { Reservations := [some { Instances := [some { Tags := T.map some }] }] }, none)) :
    ∃ M : GoMap, GetEC2InstanceTags a instanceID = Outcome.returned M ∧
      (∀ k, k ∈ GoMap.keys M ↔ k ∈ T.map (fun t => StringValue t.Key)) ∧
      (∀ k, GoMap.find? M k =
        (T.reverse.find? (fun t => decide (StringValue t.Key = k))).map
          (fun t => StringValue t.Value)) ∧
      (GoMap.keys M).Nodup ∧
      (T = [{ Key := some "Name", Value := some "bosh/0" },
            { Key := some "deployment", Value := some "cf" }] →
        M = [("Name", "bosh/0"), ("deployment", "cf")]) := by
  have hfind : ∀ k, GoMap.find?
      (T.foldl (fun m t => GoMap.assign m (StringValue t.Key) (StringValue t.Value)) []) k =
        (T.reverse.find? (fun t => decide (StringValue t.Key = k))).map
          (fun t => StringValue t.Value) := by
    intro k
    rw [tags_fold_find?]
    simp [GoMap.find?]
  refine ⟨T.foldl (fun m t => GoMap.assign m (StringValue t.Key) (StringValue t.Value)) [],
    ?_, ?_, hfind, ?_, ?_⟩
  · simp [GetEC2InstanceTags, h, deref, expectLen, sliceIndex, flattenTags_map_some]
  · intro k
    rw [GoMap.mem_keys_iff]
    simp only [hfind, List.mem_map]
    constructor
    · rintro ⟨v, hv⟩
      cases hf : List.find? (fun t => decide (StringValue t.Key = k)) T.reverse with
      | none => rw [hf] at hv; simp at hv
      | some t =>
        have hmem := List.mem_of_find?_eq_some hf
        have hp := List.find?_some hf
        exact ⟨t, List.mem_reverse.mp hmem, by simpa using hp⟩
    · rintro ⟨t, ht, hk⟩
      cases hf : List.find? (fun t => decide (StringValue t.Key = k)) T.reverse with
      | none =>
        rw [List.find?_eq_none] at hf
        have := hf t (List.mem_reverse.mpr ht)
        simp [hk] at this
      | some t' => simp
  · exact tags_fold_nodup _ _ (by simp [GoMap.keys])
  · intro hT
    rw [hT]
    decide

/-- C2 at the tags of the example: the result is exactly the two entries. -/
theorem GetEC2InstanceTags_last_write_wins_witness :
    ∃ M : GoMap,
      GetEC2InstanceTags
          (fixedResponses (failing routerOnlyStack) (failing "") (failing Certificate.zero)
            (some (singleInstance directorTags), none) (failing none)) "i-0abc" =
        Outcome.returned M ∧
        M = [("Name", "bosh/0"), ("deployment", "cf")] := by
  obtain ⟨M, hM, _, _, _, hex⟩ :=
    GetEC2InstanceTags_last_write_wins
      (fixedResponses (failing routerOnlyStack) (failing "") (failing Certificate.zero)
        (some (singleInstance directorTags), none) (failing none)) "i-0abc" directorTags rfl
  exact ⟨M, hM, hex rfl⟩

/-- C3: when the describe-instances response does not hold exactly one reservation, or its
single reservation does not hold exactly one instance, `GetEC2InstanceTags` halts on the
failed length expectation (whatever error came with the response); and whenever it does
return a map, the response was error-free with exactly one reservation holding exactly one
instance. -/
theorem GetEC2InstanceTags_cardinality_fatal (a : AWS) (instanceID : String) :
    (∀ (out : DescribeInstancesOutput) (err : Option GoError),
      a.ec2Client.DescribeInstances (describeInstanceInput instanceID) = (some out, err) →
      (out.Reservations.length ≠ 1 ∨
        ∃ r : Reservation, out.Reservations = [some r] ∧ r.Instances.length ≠ 1) →
      GetEC2InstanceTags a instanceID = Outcome.halted Halt.assertion) ∧
    (∀ M : GoMap, GetEC2InstanceTags a instanceID = Outcome.returned M →
      ∃ (r : Reservation) (inst : Instance),
        a.ec2Client.DescribeInstances (describeInstanceInput instanceID) =
          (some { Reservations := [some r] }, none) ∧ r.Instances = [some inst]) := by
  constructor
  · intro out err h hcard
    cases err with
    | some e => simp [GetEC2InstanceTags, h]
    | none =>
      rcases hcard with hlen | ⟨r, hr, hlen⟩
      · simp [GetEC2InstanceTags, h, deref, expectLen, hlen]
      · simp [GetEC2InstanceTags, h, deref, expectLen, sliceIndex, hr, hlen]
  · intro M hM
    rcases hresp : a.ec2Client.DescribeInstances (describeInstanceInput instanceID) with ⟨o, err⟩
    cases err with
    | some e => simp [GetEC2InstanceTags, hresp] at hM
    | none =>
      cases o with
      | none => simp [GetEC2InstanceTags, hresp, deref] at hM
      | some out =>
        obtain ⟨rs⟩ := out
        match rs with
        | [] => simp [GetEC2InstanceTags, hresp, deref, expectLen] at hM
        | _ :: _ :: _ => simp [GetEC2InstanceTags, hresp, deref, expectLen] at hM
        | [none] => simp [GetEC2InstanceTags, hresp, deref, expectLen, sliceIndex] at hM
        | [some r] =>
          obtain ⟨is⟩ := r
          match is with
          | [] => simp [GetEC2InstanceTags, hresp, deref, expectLen, sliceIndex] at hM
          | _ :: _ :: _ => simp [GetEC2InstanceTags, hresp, deref, expectLen, sliceIndex] at hM
          | [none] => simp [GetEC2InstanceTags, hresp, deref, expectLen, sliceIndex] at hM
          | [some inst] => exact ⟨{ Instances := [some inst] }, inst, rfl, rfl⟩

/-- C3 at two concrete responses: no reservation at all, and one reservation with two instances. -/
theorem GetEC2InstanceTags_cardinality_fatal_witness :
    GetEC2InstanceTags
        (fixedResponses (failing routerOnlyStack) (failing "") (failing Certificate.zero)
          (some { Reservations := [] }, none) (failing none)) "i-0abc" =
      Outcome.halted Halt.assertion ∧
    GetEC2InstanceTags
        (fixedResponses (failing routerOnlyStack) (failing "") (failing Certificate.zero)
          (some { Reservations := [some { Instances := [some { Tags := [] }, some { Tags := [] }] }] },
            none) (failing none)) "i-0abc" =
      Outcome.halted Halt.assertion :=
  ⟨(GetEC2InstanceTags_cardinality_fatal _ "i-0abc").1 { Reservations := [] } none rfl
      (Or.inl (by decide)),
    (GetEC2InstanceTags_cardinality_fatal _ "i-0abc").1
      { Reservations := [some { Instances := [some { Tags := [] }, some { Tags := [] }] }] } none rfl
      (Or.inr ⟨{ Instances := [some { Tags := [] }, some { Tags := [] }] }, rfl, by decide⟩)⟩

/-- C4: when the stack describe operation signals `StackNotFound`, `StackExists` returns
`false` and does not halt. -/
theorem StackExists_false_of_StackNotFound (a : AWS) (stackName : String)
    (h : (a.stackManager.Describe stackName).2 = some GoError.StackNotFound) :
    StackExists a stackName = Outcome.returned false := by
  rcases hd : a.stackManager.Describe stackName with ⟨s, err⟩
  rw [hd] at h
  simp only at h
  simp [StackExists, hd, h]

/-- C4 at a provider that holds no stack. -/
theorem StackExists_false_of_StackNotFound_witness :
    StackExists
        (fixedResponses ({ Name := "", Outputs := [] }, some GoError.StackNotFound) (failing "")
          (failing Certificate.zero) (failing none) (failing none)) "absent-stack" =
      Outcome.returned false :=
  StackExists_false_of_StackNotFound _ "absent-stack" rfl

/-- C5: `StackExists` returns `true` exactly when the describe operation reported no error. -/
theorem StackExists_true_iff (a : AWS) (stackName : String) :
    StackExists a stackName = Outcome.returned true ↔
      (a.stackManager.Describe stackName).2 = none := by
  rcases hd : a.stackManager.Describe stackName with ⟨s, err⟩
  cases err with
  | none => simp [StackExists, hd]
  | some e =>
    by_cases he : e = GoError.StackNotFound
    · simp [StackExists, hd, he]
    · simp [StackExists, hd, he]

/-- C5 at a provider that holds the stack. -/
theorem StackExists_true_iff_witness :
    StackExists
        (fixedResponses (routerOnlyStack, none) (failing "") (failing Certificate.zero)
          (failing none) (failing none)) "bbl-stack" =
      Outcome.returned true :=
  (StackExists_true_iff _ "bbl-stack").mpr rfl

/-- C6: over the certificate lookup of the specification, when the lookup signals
`CertificateNotFound`, `DescribeCertificate` does not halt: it returns the certificate the
lookup handed back, which is the zero value. -/
theorem DescribeCertificate_zero_of_CertificateNotFound (a : AWS) (certificates : List Certificate)
    (certificateName : String)
    (hd : a.certificateDescriber = certificateDescriberOver certificates)
    (h : (a.certificateDescriber.Describe certificateName).2 = some GoError.CertificateNotFound) :
    DescribeCertificate a certificateName =
        Outcome.returned (a.certificateDescriber.Describe certificateName).1 ∧
      DescribeCertificate a certificateName = Outcome.returned Certificate.zero := by
  rw [hd] at h
  cases hf : certificates.find? (fun c => decide (c.Name = certificateName)) with
  | some c => simp [certificateDescriberOver, hf] at h
  | none => simp [DescribeCertificate, hd, certificateDescriberOver, hf]

/-- C6 at a provider holding one certificate, queried for another name. -/
theorem DescribeCertificate_zero_of_CertificateNotFound_witness :
    DescribeCertificate
        (withCertificates [{ Name := "bbl-cert", ARN := "arn:1", Expiration := "2030" }])
        "missing-cert" =
      Outcome.returned Certificate.zero :=
  (DescribeCertificate_zero_of_CertificateNotFound
    (withCertificates [{ Name := "bbl-cert", ARN := "arn:1", Expiration := "2030" }])
    [{ Name := "bbl-cert", ARN := "arn:1", Expiration := "2030" }] "missing-cert" rfl
    (by decide)).2

/-- C7: over the certificate lookup of the specification, when the lookup returns without
error, `DescribeCertificate` returns the looked-up certificate, whose name is the queried
name. -/
theorem DescribeCertificate_name_matches (a : AWS) (certificates : List Certificate)
    (certificateName : String)
    (hd : a.certificateDescriber = certificateDescriberOver certificates)
    (h : (a.certificateDescriber.Describe certificateName).2 = none) :
    ∃ c : Certificate, DescribeCertificate a certificateName = Outcome.returned c ∧
      c = (a.certificateDescriber.Describe certificateName).1 ∧ c.Name = certificateName := by
  rw [hd] at h
  cases hf : certificates.find? (fun c => decide (c.Name = certificateName)) with
  | none => simp [certificateDescriberOver, hf] at h
  | some c =>
    have hname : c.Name = certificateName := by simpa using List.find?_some hf
    exact ⟨c, by simp [DescribeCertificate, hd, certificateDescriberOver, hf],
      by simp [hd, certificateDescriberOver, hf], hname⟩

/-- C7 at a provider holding two certificates, queried for the second. -/
theorem DescribeCertificate_name_matches_witness :
    ∃ c : Certificate,
      DescribeCertificate
          (withCertificates [{ Name := "other", ARN := "arn:0", Expiration := "2029" },
            { Name := "bbl-cert", ARN := "arn:1", Expiration := "2030" }]) "bbl-cert" =
        Outcome.returned c ∧ c.Name = "bbl-cert" := by
  obtain ⟨c, hc, _, hn⟩ :=
    DescribeCertificate_name_matches
      (withCertificates [{ Name := "other", ARN := "arn:0", Expiration := "2029" },
        { Name := "bbl-cert", ARN := "arn:1", Expiration := "2030" }])
      [{ Name := "other", ARN := "arn:0", Expiration := "2029" },
        { Name := "bbl-cert", ARN := "arn:1", Expiration := "2030" }] "bbl-cert" rfl (by decide)
  exact ⟨c, hc, hn⟩

/-- C8: when the describe-key-pairs call returns a response without error,
`DescribeKeyPairs` returns exactly the response's key-pair list; in particular an empty
list comes back as the empty list, without a halt. -/
theorem DescribeKeyPairs_unmodified (a : AWS) (keypairName : String)
    (out : DescribeKeyPairsOutput)
    (h : a.ec2Client.DescribeKeyPairs (describeKeyPairsParams keypairName) = (some out, none)) :
    DescribeKeyPairs a keypairName = Outcome.returned out.KeyPairs ∧
      (out.KeyPairs = [] → DescribeKeyPairs a keypairName = Outcome.returned []) := by
  have hret : DescribeKeyPairs a keypairName = Outcome.returned out.KeyPairs := by
    simp [DescribeKeyPairs, h, deref]
  exact ⟨hret, fun he => he ▸ hret⟩

/-- C8 at a response holding two key pairs, and at a response holding none. -/
theorem DescribeKeyPairs_unmodified_witness :
    DescribeKeyPairs
        (fixedResponses (failing routerOnlyStack) (failing "") (failing Certificate.zero)
          (failing none)
          (some { KeyPairs := [some { KeyFingerprint := some "aa:bb", KeyName := some "bbl-key" },
            some { KeyFingerprint := some "cc:dd", KeyName := some "bbl-key" }] }, none))
        "bbl-key" =
      Outcome.returned [some { KeyFingerprint := some "aa:bb", KeyName := some "bbl-key" },
        some { KeyFingerprint := some "cc:dd", KeyName := some "bbl-key" }] ∧
    DescribeKeyPairs
        (fixedResponses (failing routerOnlyStack) (failing "") (failing Certificate.zero)
          (failing none) (some { KeyPairs := [] }, none)) "no-such-key" =
      Outcome.returned [] :=
  ⟨(DescribeKeyPairs_unmodified _ "bbl-key" _ rfl).1,
    (DescribeKeyPairs_unmodified _ "no-such-key" { KeyPairs := [] } rfl).2 rfl⟩

/-- C9: a provider error is fatal everywhere but in the two expected-absence cases:
`StackExists` halts on every describe error other than `StackNotFound`,
`DescribeCertificate` on every lookup error other than `CertificateNotFound`,
`GetPhysicalID` and `LoadBalancers` on every error (`StackNotFound` included),
`GetEC2InstanceTags` and `DescribeKeyPairs` on every provider error; a halted call returns
no value; and when the lookup of `GetPhysicalID` succeeds, the physical identifier comes
back unchanged. -/
theorem unexpected_provider_errors_fatal (a : AWS) :
    (∀ stackName e, (a.stackManager.Describe stackName).2 = some e →
      e ≠ GoError.StackNotFound → StackExists a stackName = Outcome.halted Halt.assertion) ∧
    (∀ certificateName e, (a.certificateDescriber.Describe certificateName).2 = some e →
      e ≠ GoError.CertificateNotFound →
      DescribeCertificate a certificateName = Outcome.halted Halt.assertion) ∧
    (∀ stackName logicalID e,
      (a.stackManager.GetPhysicalIDForResource stackName logicalID).2 = some e →
      GetPhysicalID a stackName logicalID = Outcome.halted Halt.assertion) ∧
    (∀ stackName e, (a.stackManager.Describe stackName).2 = some e →
      LoadBalancers a stackName = Outcome.halted Halt.assertion) ∧
    (∀ instanceID e,
      (a.ec2Client.DescribeInstances (describeInstanceInput instanceID)).2 = some e →
      GetEC2InstanceTags a instanceID = Outcome.halted Halt.assertion) ∧
    (∀ keypairName e,
      (a.ec2Client.DescribeKeyPairs (describeKeyPairsParams keypairName)).2 = some e →
      DescribeKeyPairs a keypairName = Outcome.halted Halt.assertion) ∧
    (∀ (α : Type) (why : Halt) (v : α), Outcome.halted why ≠ Outcome.returned v) ∧
    (∀ stackName logicalID physicalID,
      a.stackManager.GetPhysicalIDForResource stackName logicalID = (physicalID, none) →
      GetPhysicalID a stackName logicalID = Outcome.returned physicalID) := by
  refine ⟨?_, ?_, ?_, ?_, ?_, ?_, ?_, ?_⟩
  · intro stackName e h hne
    rcases hd : a.stackManager.Describe stackName with ⟨s, err⟩
    rw [hd] at h
    simp only at h
    simp [StackExists, hd, h, hne]
  · intro certificateName e h hne
    rcases hd : a.certificateDescriber.Describe certificateName with ⟨c, err⟩
    rw [hd] at h
    simp only at h
    simp [DescribeCertificate, hd, h, hne]
  · intro stackName logicalID e h
    rcases hd : a.stackManager.GetPhysicalIDForResource stackName logicalID with ⟨p, err⟩
    rw [hd] at h
    simp only at h
    simp [GetPhysicalID, hd, h]
  · intro stackName e h
    rcases hd : a.stackManager.Describe stackName with ⟨s, err⟩
    rw [hd] at h
    simp only at h
    simp [LoadBalancers, hd, h]
  · intro instanceID e h
    rcases hd : a.ec2Client.DescribeInstances (describeInstanceInput instanceID) with ⟨o, err⟩
    rw [hd] at h
    simp only at h
    simp [GetEC2InstanceTags, hd, h]
  · intro keypairName e h
    rcases hd : a.ec2Client.DescribeKeyPairs (describeKeyPairsParams keypairName) with ⟨o, err⟩
    rw [hd] at h
    simp only at h
    simp [DescribeKeyPairs, hd, h]
  · intro α why v h
    cases h
  · intro stackName logicalID physicalID h
    simp [GetPhysicalID, h]

/-- C9 at concrete providers: an authorization failure halts `StackExists` and
`DescribeCertificate`, `StackNotFound` halts `LoadBalancers` and `GetPhysicalID`, and a
successful lookup gives `GetPhysicalID` its identifier back. -/
theorem unexpected_provider_errors_fatal_witness :
    StackExists
        (fixedResponses (routerOnlyStack, some (GoError.other "AccessDenied")) (failing "")
          (failing Certificate.zero) (failing none) (failing none)) "bbl-stack" =
      Outcome.halted Halt.assertion ∧
    DescribeCertificate
        (fixedResponses (failing routerOnlyStack) (failing "")
          (Certificate.zero, some (GoError.other "AccessDenied")) (failing none) (failing none))
        "bbl-cert" =
      Outcome.halted Halt.assertion ∧
    LoadBalancers
        (fixedResponses (routerOnlyStack, some GoError.StackNotFound)
          ("", some GoError.StackNotFound) (failing Certificate.zero) (failing none)
          (failing none)) "bbl-stack" =
      Outcome.halted Halt.assertion ∧
    GetPhysicalID
        (fixedResponses (routerOnlyStack, some GoError.StackNotFound)
          ("", some GoError.StackNotFound) (failing Certificate.zero) (failing none)
          (failing none)) "bbl-stack" "BOSHSecurityGroup" =
      Outcome.halted Halt.assertion ∧
    GetPhysicalID
        (fixedResponses (routerOnlyStack, none) ("sg-12345", none) (failing Certificate.zero)
          (failing none) (failing none)) "bbl-stack" "BOSHSecurityGroup" =
      Outcome.returned "sg-12345" :=
  ⟨(unexpected_provider_errors_fatal _).1 "bbl-stack" (GoError.other "AccessDenied") rfl
      (by decide),
    (unexpected_provider_errors_fatal _).2.1 "bbl-cert" (GoError.other "AccessDenied") rfl
      (by decide),
    (unexpected_provider_errors_fatal _).2.2.2.1 "bbl-stack" GoError.StackNotFound rfl,
    (unexpected_provider_errors_fatal _).2.2.1 "bbl-stack" "BOSHSecurityGroup"
      GoError.StackNotFound rfl,
    (unexpected_provider_errors_fatal _).2.2.2.2.2.2.2 "bbl-stack" "BOSHSecurityGroup" "sg-12345"
      rfl⟩

/-- C10: the outcome of each of the six queries is determined by its arguments and the
provider's response to the one call it issues.  Two calls with the same arguments, made
through actors `a` and `b` that may differ in everything else they hold, produce equal
outcomes (the same value, or the same halt) as soon as that response is the same; in
particular repeating a call on one actor against an unchanged provider repeats its outcome. -/
theorem queries_determined_by_response (a b : AWS) :
    (∀ stackName, a.stackManager.Describe stackName = b.stackManager.Describe stackName →
      StackExists a stackName = StackExists b stackName) ∧
    (∀ stackName logicalID,
      a.stackManager.GetPhysicalIDForResource stackName logicalID =
        b.stackManager.GetPhysicalIDForResource stackName logicalID →
      GetPhysicalID a stackName logicalID = GetPhysicalID b stackName logicalID) ∧
    (∀ stackName, a.stackManager.Describe stackName = b.stackManager.Describe stackName →
      LoadBalancers a stackName = LoadBalancers b stackName) ∧
    (∀ certificateName,
      a.certificateDescriber.Describe certificateName =
        b.certificateDescriber.Describe certificateName →
      DescribeCertificate a certificateName = DescribeCertificate b certificateName) ∧
    (∀ instanceID,
      a.ec2Client.DescribeInstances (describeInstanceInput instanceID) =
        b.ec2Client.DescribeInstances (describeInstanceInput instanceID) →
      GetEC2InstanceTags a instanceID = GetEC2InstanceTags b instanceID) ∧
    (∀ keypairName,
      a.ec2Client.DescribeKeyPairs (describeKeyPairsParams keypairName) =
        b.ec2Client.DescribeKeyPairs (describeKeyPairsParams keypairName) →
      DescribeKeyPairs a keypairName = DescribeKeyPairs b keypairName) := by
  refine ⟨?_, ?_, ?_, ?_, ?_, ?_⟩
  · intro stackName h
    simp only [StackExists, h]
  · intro stackName logicalID h
    simp only [GetPhysicalID, h]
  · intro stackName h
    simp only [LoadBalancers, h]
  · intro certificateName h
    simp only [DescribeCertificate, h]
  · intro instanceID h
    simp only [GetEC2InstanceTags, h]
  · intro keypairName h
    simp only [DescribeKeyPairs, h]

/-- C10 at two actors that agree on the stack description and on nothing else: the
load-balancer query gives the same map through both, and the same map when repeated. -/
theorem queries_determined_by_response_witness :
    LoadBalancers
        (fixedResponses (routerOnlyStack, none) (failing "") (failing Certificate.zero)
          (failing none) (failing none)) "bbl-stack" =
      LoadBalancers
        (fixedResponses (routerOnlyStack, none) ("sg-12345", none)
          ({ Name := "bbl-cert", ARN := "arn:1", Expiration := "2030" }, none)
          (some (singleInstance directorTags), none) (some { KeyPairs := [] }, none))
        "bbl-stack" ∧
    LoadBalancers
        (fixedResponses (routerOnlyStack, none) (failing "") (failing Certificate.zero)
          (failing none) (failing none)) "bbl-stack" =
      LoadBalancers
        (fixedResponses (routerOnlyStack, none) (failing "") (failing Certificate.zero)
          (failing none) (failing none)) "bbl-stack" :=
  ⟨(queries_determined_by_response _ _).2.2.1 "bbl-stack" rfl,
    (queries_determined_by_response _ _).2.2.1 "bbl-stack" rfl⟩

end Actors
